import Mathlib

/-!
Verification of `breaktarget` (src/src/lib.rs).

The library provides `BreakTarget<T>`: `BreakTarget::deploy(func)` runs
`func` with a reference to a freshly stack-allocated target (a
`RefCell<Option<T>>` payload slot), catching panics.  `break_with(data)`
stores `data` in the slot and raises a panic whose payload is a zero-sized
`BreakRequest` box whose address is the target's own address; `deploy`
consumes an intercepted panic exactly when the payload downcasts to
`BreakRequest` and its address equals the address of this deployment's
target, in which case it returns `target.0.into_inner().unwrap()`;
otherwise it calls `panic::resume_unwind` on the payload unchanged.

Shallow embedding.  Target identities are addresses (`Nat`) handed out by a
monotone allocator: the source identifies a target by its stack address and
no two concurrently-live targets share an address, which fresh allocation
models faithfully.  The mutable world is `St`: the payload slot of each
target, instrumentation counting slot writes and slot reads per address,
the allocator, and an event log used to observe which statements of a body
actually execute.  Client code (the bodies handed to `deploy`, together
with the context around nested deployments) is the inductive `Prog`; its
interpreter `run` is a transcription of `deploy` and `break_with` from the
source, with panic payloads as `PanicPayload` (`breakRequest addr` for the
library's `BreakRequest` box, `other e` for an unrelated panic with payload
`e`, `unwrapFailed` for the panic of `Option::unwrap` on `None` in
`deploy`).
-/

namespace Breaktarget

/-- A panic payload in flight during unwinding.  `breakRequest addr` models
the zero-sized `BreakRequest` box whose address `addr` identifies the
target being broken toward; `other e` models an unrelated panic carrying a
client value `e`; `unwrapFailed` models the panic that `.unwrap()` in
`deploy` would raise on an empty slot. -/
inductive PanicPayload (E : Type) : Type where
  | breakRequest (addr : Nat)
  | unwrapFailed
  | other (e : E)
deriving DecidableEq

/-- Outcome of running a computation: a normal value, or unwinding with a
panic payload (the `Ok`/`Err` of `panic::catch_unwind` seen from outside). -/
inductive Res (T E : Type) : Type where
  | ok (v : T)
  | panicked (p : PanicPayload E)

/-- The mutable world: per-address payload slots (`RefCell<Option<T>>` of
each live or dead target), per-address counts of slot writes and slot
reads (instrumentation, not program state), the next fresh address, and an
event log recording which `emit` statements executed. -/
structure St (T : Type) : Type where
  slots : Nat → Option T
  wcount : Nat → Nat
  rcount : Nat → Nat
  next : Nat
  log : List Nat

/-- Client programs over the library API.  `break_with tgt v rest` is a
call `tgt.break_with(v)` followed by the (dead) code `rest`; `deploy body k`
is `BreakTarget::deploy(body)` with `k` the code at the deployment site
consuming its result; `fail e` is an unrelated `panic!(e)`; `emit n rest`
is an observable side effect (e.g. setting a flag) followed by `rest`. -/
inductive Prog (T E : Type) : Type where
  | ret (v : T)
  | break_with (tgt : Nat) (v : T) (rest : Prog T E)
  | fail (e : E)
  | deploy (body : Nat → Prog T E) (k : T → Prog T E)
  | emit (n : Nat) (rest : Prog T E)

variable {T E : Type}

/-- `deploy`'s prologue: `let target = BreakTarget(RefCell::new(None))` —
allocate a fresh address with an empty slot. -/
def alloc (s : St T) : St T :=
  { s with slots := fun x => if x = s.next then none else s.slots x,
           next := s.next + 1 }

/-- Instrumentation for the one slot read `target.0.into_inner().unwrap()`
performed by a matching `deploy`. -/
def readBump (s : St T) (a : Nat) : St T :=
  { s with rcount := fun x => if x = a then s.rcount a + 1 else s.rcount x }

/-- The interpreter, a transcription of `BreakTarget::deploy` and
`BreakTarget::break_with` from the source.  `break_with` stores the value
in the target's slot and then unwinds with a `breakRequest` carrying the
target's address (`resume_unwind`), never running `rest`.  `deploy`
allocates a target, runs the body catching unwinds; on a normal value it
returns it; on a `breakRequest` whose address equals its own target's
address it reads the slot and returns the stored value (panicking with
`unwrapFailed` if the slot were empty); any other payload is re-raised
unchanged. -/
def run : Prog T E → St T → Res T E × St T
  | .ret v, s => (.ok v, s)
  | .break_with tgt v _rest, s =>
      (.panicked (.breakRequest tgt),
       { s with slots := fun x => if x = tgt then some v else s.slots x,
                wcount := fun x => if x = tgt then s.wcount tgt + 1 else s.wcount x })
  | .fail e, s => (.panicked (.other e), s)
  | .emit n rest, s => run rest { s with log := s.log ++ [n] }
  | .deploy body k, s =>
      match run (body s.next) (alloc s) with
      | (.ok v, s2) => run (k v) s2
      | (.panicked (.breakRequest a), s2) =>
          if a = s.next then
            match s2.slots s.next with
            | some v => run (k v) (readBump s2 s.next)
            | none => (.panicked .unwrapFailed, s2)
          else (.panicked (.breakRequest a), s2)
      | (.panicked p, s2) => (.panicked p, s2)

/-- The initial world: no targets allocated, empty log. -/
def init : St T :=
  { slots := fun _ => none, wcount := fun _ => 0, rcount := fun _ => 0,
    next := 0, log := [] }

@[simp] theorem alloc_next (s : St T) : (alloc s).next = s.next + 1 := rfl

@[simp] theorem alloc_log (s : St T) : (alloc s).log = s.log := rfl

@[simp] theorem alloc_wcount (s : St T) : (alloc s).wcount = s.wcount := rfl

@[simp] theorem alloc_rcount (s : St T) : (alloc s).rcount = s.rcount := rfl

@[simp] theorem readBump_next (s : St T) (a : Nat) :
    (readBump s a).next = s.next := rfl

@[simp] theorem readBump_log (s : St T) (a : Nat) :
    (readBump s a).log = s.log := rfl

@[simp] theorem readBump_slots (s : St T) (a : Nat) :
    (readBump s a).slots = s.slots := rfl

@[simp] theorem readBump_wcount (s : St T) (a : Nat) :
    (readBump s a).wcount = s.wcount := rfl

/-- The allocator only moves forward: running any program never lowers
`next` (fresh addresses are never reused, modelling that no two
concurrently-live targets share a stack address). -/
theorem run_next_mono (p : Prog T E) : ∀ s : St T, s.next ≤ (run p s).2.next := by
  induction p with
  | ret v => intro s; exact Nat.le_refl _
  | break_with tgt v rest ih => intro s; exact Nat.le_refl _
  | fail e => intro s; exact Nat.le_refl _
  | emit n rest ih =>
    intro s
    simpa [run] using ih { s with log := s.log ++ [n] }
  | deploy body k ihb ihk =>
    intro s
    have hb := ihb s.next (alloc s)
    simp only [alloc_next] at hb
    simp only [run]
    split
    next v s2 heq =>
      rw [heq] at hb
      have hb2 : s.next + 1 ≤ s2.next := hb
      have hk := ihk v s2
      omega
    next a s2 heq =>
      rw [heq] at hb
      have hb2 : s.next + 1 ≤ s2.next := hb
      split
      · split
        next v hv =>
          have hk := ihk v (readBump s2 s.next)
          simp only [readBump_next] at hk
          omega
        next hv =>
          show s.next ≤ s2.next
          omega
      · show s.next ≤ s2.next
        omega
    next =>
      rename_i heq
      rw [heq] at hb
      omega

/-- The observable footprint of one target: its slot and its write/read
counts. -/
def obs (s : St T) (a : Nat) : Option T × Nat × Nat :=
  (s.slots a, s.wcount a, s.rcount a)

theorem obs_alloc (s : St T) (a : Nat) (h : a ≠ s.next) :
    obs (alloc s) a = obs s a := by
  simp [obs, alloc, h]

theorem obs_readBump (s : St T) (a b : Nat) (h : a ≠ b) :
    obs (readBump s b) a = obs s a := by
  simp [obs, readBump, h]

/-- Frame locality: running any program leaves every previously-allocated
address untouched — same slot contents, no slot write, no slot read —
unless the run's outcome is an escape aimed exactly at that address. -/
theorem run_stable (p : Prog T E) :
    ∀ (s : St T) (a : Nat), a < s.next →
      (run p s).1 ≠ Res.panicked (PanicPayload.breakRequest a) →
      obs (run p s).2 a = obs s a := by
  induction p with
  | ret v => intro s a ha hr; rfl
  | fail e => intro s a ha hr; rfl
  | break_with tgt v rest ih =>
    intro s a ha hr
    have htgt : a ≠ tgt := by
      intro h
      exact hr (by rw [h]; rfl)
    simp [run, obs, htgt]
  | emit n rest ih =>
    intro s a ha hr
    rw [run] at hr ⊢
    exact ih _ a ha hr
  | deploy body k ihb ihk =>
    intro s a ha hr
    have hane : a ≠ s.next := Nat.ne_of_lt ha
    have ha1 : a < (alloc s).next := by rw [alloc_next]; omega
    rw [run] at hr ⊢
    rcases hb : run (body s.next) (alloc s) with ⟨r2, s2⟩
    rw [hb] at hr
    have hmono : (alloc s).next ≤ s2.next := by
      have h := run_next_mono (body s.next) (alloc s)
      rw [hb] at h
      exact h
    have ha2 : a < s2.next := lt_of_lt_of_le ha1 hmono
    cases r2 with
    | ok v =>
      have hr' : (run (k v) s2).1 ≠ Res.panicked (PanicPayload.breakRequest a) := hr
      have hbody := ihb s.next (alloc s) a ha1 (by rw [hb]; simp)
      rw [hb] at hbody
      have hbody2 : obs s2 a = obs (alloc s) a := hbody
      show obs (run (k v) s2).2 a = obs s a
      rw [ihk v s2 a ha2 hr', hbody2, obs_alloc s a hane]
    | panicked pp =>
      cases pp with
      | breakRequest b =>
        have hif : (if b = s.next then
              (match s2.slots s.next with
               | some v => run (k v) (readBump s2 s.next)
               | none => (Res.panicked PanicPayload.unwrapFailed, s2))
              else (Res.panicked (PanicPayload.breakRequest b), s2)).1
            ≠ Res.panicked (PanicPayload.breakRequest a) := hr
        show obs ((if b = s.next then
              (match s2.slots s.next with
               | some v => run (k v) (readBump s2 s.next)
               | none => (Res.panicked PanicPayload.unwrapFailed, s2))
              else (Res.panicked (PanicPayload.breakRequest b), s2))).2 a
            = obs s a
        by_cases hbs : b = s.next
        · rw [if_pos hbs]
          rw [if_pos hbs] at hif
          have hbody := ihb s.next (alloc s) a ha1 (by
            rw [hb]
            simp only [ne_eq, Res.panicked.injEq, PanicPayload.breakRequest.injEq]
            omega)
          rw [hb] at hbody
          have hbody2 : obs s2 a = obs (alloc s) a := hbody
          rcases hsl : s2.slots s.next with _ | v
          · show obs s2 a = obs s a
            rw [hbody2, obs_alloc s a hane]
          · rw [hsl] at hif
            show obs (run (k v) (readBump s2 s.next)).2 a = obs s a
            have hr' : (run (k v) (readBump s2 s.next)).1
                ≠ Res.panicked (PanicPayload.breakRequest a) := hif
            have ha3 : a < (readBump s2 s.next).next := by
              rw [readBump_next]; exact ha2
            rw [ihk v (readBump s2 s.next) a ha3 hr',
              obs_readBump s2 a s.next hane, hbody2, obs_alloc s a hane]
        · rw [if_neg hbs]
          rw [if_neg hbs] at hif
          have hba : b ≠ a := by
            simp only [ne_eq, Res.panicked.injEq, PanicPayload.breakRequest.injEq]
              at hif
            exact hif
          have hbody := ihb s.next (alloc s) a ha1 (by
            rw [hb]
            simp only [ne_eq, Res.panicked.injEq, PanicPayload.breakRequest.injEq]
            exact hba)
          rw [hb] at hbody
          have hbody2 : obs s2 a = obs (alloc s) a := hbody
          show obs s2 a = obs s a
          rw [hbody2, obs_alloc s a hane]
      | unwrapFailed =>
        have hbody := ihb s.next (alloc s) a ha1 (by rw [hb]; simp)
        rw [hb] at hbody
        have hbody2 : obs s2 a = obs (alloc s) a := hbody
        show obs s2 a = obs s a
        rw [hbody2, obs_alloc s a hane]
      | other e =>
        have hbody := ihb s.next (alloc s) a ha1 (by rw [hb]; simp)
        rw [hb] at hbody
        have hbody2 : obs s2 a = obs (alloc s) a := hbody
        show obs s2 a = obs s a
        rw [hbody2, obs_alloc s a hane]

/-- Whenever a run unwinds with an escape signal aimed at address `a`, the
slot of `a` holds a value: the raising `break_with` stored it before
unwinding began, and nothing clears it while the signal is in flight.
Moreover if `a` was already allocated when the run started, exactly one
slot write and no slot read happened at `a` during the run. -/
theorem run_escape_state (p : Prog T E) :
    ∀ (s : St T) (a : Nat) (s' : St T),
      run p s = (Res.panicked (PanicPayload.breakRequest a), s') →
      (∃ v, s'.slots a = some v)
      ∧ (a < s.next →
          s'.wcount a = s.wcount a + 1 ∧ s'.rcount a = s.rcount a) := by
  induction p with
  | ret v => intro s a s' h; simp [run] at h
  | fail e => intro s a s' h; simp [run] at h
  | break_with tgt v rest ih =>
    intro s a s' h
    rw [run] at h
    injection h with h1 h2
    injection h1 with h1
    injection h1 with h1
    subst h1
    rw [← h2]
    exact ⟨⟨v, by simp⟩, fun ha => ⟨by simp, rfl⟩⟩
  | emit n rest ih =>
    intro s a s' h
    rw [run] at h
    exact ih { s with log := s.log ++ [n] } a s' h
  | deploy body k ihb ihk =>
    intro s a s' h
    rw [run] at h
    rcases hb : run (body s.next) (alloc s) with ⟨r2, s2⟩
    rw [hb] at h
    have hmono : s.next + 1 ≤ s2.next := by
      have hm := run_next_mono (body s.next) (alloc s)
      rw [hb] at hm
      exact hm
    cases r2 with
    | ok v =>
      have h' : run (k v) s2 = (Res.panicked (PanicPayload.breakRequest a), s') := h
      have hk := ihk v s2 a s' h'
      refine ⟨hk.1, fun ha => ?_⟩
      have hcounts := hk.2 (by omega)
      have hbody := run_stable (body s.next) (alloc s) a
        (by rw [alloc_next]; omega) (by rw [hb]; simp)
      rw [hb] at hbody
      have hbody2 : obs s2 a = obs (alloc s) a := hbody
      have hobs : obs s2 a = obs s a :=
        hbody2.trans (obs_alloc s a (by omega))
      have hw : s2.wcount a = s.wcount a := by
        have hc := congrArg (fun t => t.2.1) hobs
        simpa [obs] using hc
      have hrc : s2.rcount a = s.rcount a := by
        have hc := congrArg (fun t => t.2.2) hobs
        simpa [obs] using hc
      exact ⟨by rw [hcounts.1, hw], by rw [hcounts.2, hrc]⟩
    | panicked pp =>
      cases pp with
      | breakRequest b =>
        have h' : (if b = s.next then
              (match s2.slots s.next with
               | some v => run (k v) (readBump s2 s.next)
               | none => (Res.panicked PanicPayload.unwrapFailed, s2))
              else (Res.panicked (PanicPayload.breakRequest b), s2))
            = (Res.panicked (PanicPayload.breakRequest a), s') := h
        by_cases hbs : b = s.next
        · rw [if_pos hbs] at h'
          rcases hsl : s2.slots s.next with _ | v
          · rw [hsl] at h'
            injection h' with h1 h2
            injection h1 with h1
            injection h1
          · rw [hsl] at h'
            have hk := ihk v (readBump s2 s.next) a s' h'
            refine ⟨hk.1, fun ha => ?_⟩
            have ha2 : a < (readBump s2 s.next).next := by
              rw [readBump_next]; omega
            have hcounts := hk.2 ha2
            have hbody := run_stable (body s.next) (alloc s) a
              (by rw [alloc_next]; omega)
              (by
                rw [hb]
                simp only [ne_eq, Res.panicked.injEq,
                  PanicPayload.breakRequest.injEq]
                omega)
            rw [hb] at hbody
            have hbody2 : obs s2 a = obs (alloc s) a := hbody
            have hobs2 : obs (readBump s2 s.next) a = obs s a := by
              rw [obs_readBump s2 a s.next (by omega), hbody2,
                obs_alloc s a (by omega)]
            have hw : (readBump s2 s.next).wcount a = s.wcount a := by
              have hc := congrArg (fun t => t.2.1) hobs2
              simpa [obs] using hc
            have hrc : (readBump s2 s.next).rcount a = s.rcount a := by
              have hc := congrArg (fun t => t.2.2) hobs2
              simpa [obs] using hc
            exact ⟨by rw [hcounts.1, hw], by rw [hcounts.2, hrc]⟩
        · rw [if_neg hbs] at h'
          injection h' with h1 h2
          injection h1 with h1
          injection h1 with h1
          subst h1
          subst h2
          have hbb := ihb s.next (alloc s) b s2 hb
          refine ⟨hbb.1, fun ha => ?_⟩
          exact hbb.2 (by rw [alloc_next]; omega)
      | unwrapFailed =>
        have h' : ((Res.panicked PanicPayload.unwrapFailed : Res T E), s2)
            = (Res.panicked (PanicPayload.breakRequest a), s') := h
        injection h' with h1 h2
        injection h1 with h1
        injection h1
      | other e =>
        have h' : ((Res.panicked (PanicPayload.other e) : Res T E), s2)
            = (Res.panicked (PanicPayload.breakRequest a), s') := h
        injection h' with h1 h2
        injection h1 with h1
        injection h1

/-- Claim C1: a body that calls `break_with v` makes `deploy` return
exactly `v`; the code before the call runs (its `emit 1` is logged), the
code after it never runs (no `emit 2` in the log, and the whole outcome is
independent of what that dead code is). -/
theorem deploy_break_with_returns_value (v : T) (rest rest' : Nat → Prog T E)
    (s : St T) :
    (run (Prog.deploy (fun a => Prog.emit 1 (Prog.break_with a v
        (Prog.emit 2 (rest a)))) Prog.ret) s).1 = Res.ok v
  ∧ (run (Prog.deploy (fun a => Prog.emit 1 (Prog.break_with a v
        (Prog.emit 2 (rest a)))) Prog.ret) s).2.log = s.log ++ [1]
  ∧ run (Prog.deploy (fun a => Prog.emit 1 (Prog.break_with a v
        (Prog.emit 2 (rest a)))) Prog.ret) s
      = run (Prog.deploy (fun a => Prog.emit 1 (Prog.break_with a v
        (Prog.emit 2 (rest' a)))) Prog.ret) s := by
  refine ⟨?_, ?_, ?_⟩ <;> simp [run, alloc, readBump]

/-- Claim C6: `break_with` first stores the value into the target's slot
(the post-state of the single step already holds `some v`, and the write
count at the target is bumped) and then unwinds with the escape signal
carrying the target's address; it never returns control to its caller —
the outcome is `panicked`, never `ok`, and is independent of the code
`rest` following the call. -/
theorem break_with_stores_then_raises (tgt : Nat) (v : T)
    (rest rest' : Prog T E) (s : St T) :
    run (Prog.break_with tgt v rest) s
      = (Res.panicked (.breakRequest tgt),
         { s with slots := fun x => if x = tgt then some v else s.slots x,
                  wcount := fun x => if x = tgt then s.wcount tgt + 1
                            else s.wcount x })
  ∧ run (Prog.break_with tgt v rest) s = run (Prog.break_with tgt v rest') s :=
  ⟨rfl, rfl⟩

/-- Claim C2: if the body returns normally with value `v` (no escape),
then `deploy` returns exactly `v`, and this deployment's payload slot is
still empty afterwards; moreover the slot was never written nor read
during the deployment (unchanged write/read counts), so it stayed empty
throughout. -/
theorem deploy_normal_return (body : Nat → Prog T E) (s : St T) (v : T)
    (s2 : St T)
    (h : run (body s.next) (alloc s) = (Res.ok v, s2)) :
    run (Prog.deploy body Prog.ret) s = (Res.ok v, s2)
  ∧ s2.slots s.next = none
  ∧ s2.wcount s.next = s.wcount s.next
  ∧ s2.rcount s.next = s.rcount s.next := by
  have hstab := run_stable (body s.next) (alloc s) s.next
    (by rw [alloc_next]; omega) (by rw [h]; simp)
  rw [h] at hstab
  have hstab2 : obs s2 s.next = obs (alloc s) s.next := hstab
  have hsl : s2.slots s.next = none := by
    have hc := congrArg (fun t => t.1) hstab2
    simpa [obs, alloc] using hc
  have hw : s2.wcount s.next = s.wcount s.next := by
    have hc := congrArg (fun t => t.2.1) hstab2
    simpa [obs] using hc
  have hrc : s2.rcount s.next = s.rcount s.next := by
    have hc := congrArg (fun t => t.2.2) hstab2
    simpa [obs] using hc
  refine ⟨?_, hsl, hw, hrc⟩
  rw [run, h]
  rfl

/-- Witness for `deploy_normal_return`, at the spec's example: a body that
returns `20` directly makes `deploy` return `20` with the slot untouched. -/
theorem deploy_normal_return_witness :
    run (Prog.deploy (fun _ => (Prog.ret 20 : Prog Nat Nat)) Prog.ret)
        (init : St Nat) = (Res.ok 20, alloc init)
  ∧ (alloc (init : St Nat)).slots (init : St Nat).next = none
  ∧ (alloc (init : St Nat)).wcount (init : St Nat).next
      = (init : St Nat).wcount (init : St Nat).next
  ∧ (alloc (init : St Nat)).rcount (init : St Nat).next
      = (init : St Nat).rcount (init : St Nat).next :=
  deploy_normal_return (fun _ => Prog.ret 20) init 20 (alloc init) rfl

/-- Claim C3: with an outer target A and an inner target B deployed inside
A's body, an escape aimed at A from inside B's body is not intercepted by
B's `deploy`.  First conjunct: a deployment whose body escapes toward any
address other than its own fresh target does not return normally — it
re-propagates the same signal.  Second conjunct: in the nested shape of
`tests::unwind_to_outer`, the outer `deploy` returns the escaped value. -/
theorem deploy_nested_outer_escape (v : T) :
    (∀ (s : St T) (dead : Prog T E) (k : T → Prog T E) (a : Nat),
      a ≠ s.next →
      (run (Prog.deploy (fun _ => Prog.break_with a v dead) k) s).1
        = Res.panicked (PanicPayload.breakRequest a))
  ∧ (∀ (s : St T) (dead rest : Nat → Prog T E),
      (run (Prog.deploy (fun a =>
          Prog.deploy (fun _ => Prog.break_with a v (dead a))
            (fun _ => rest a)) Prog.ret) s).1 = Res.ok v) := by
  constructor
  · intro s dead k a hne
    simp [run, hne]
  · intro s dead rest
    simp [run]

/-- Witness for `deploy_nested_outer_escape` at the test's value `1`: a
deployment in a state where address `0` belongs to an enclosing target
re-propagates an escape aimed at `0`; the nested outer/inner deployment
pair delivers `1` to the outer deployment. -/
theorem deploy_nested_outer_escape_witness :
    (run (Prog.deploy
        (fun _ => Prog.break_with 0 (1 : Nat) (Prog.ret 0 : Prog Nat Nat))
        Prog.ret) (alloc (init : St Nat))).1
      = Res.panicked (PanicPayload.breakRequest 0)
  ∧ (run (Prog.deploy (fun a =>
        Prog.deploy (fun _ => Prog.break_with a (1 : Nat)
          (Prog.ret 0 : Prog Nat Nat)) (fun _ => Prog.ret 2))
        Prog.ret) (init : St Nat)).1 = Res.ok 1 :=
  ⟨(deploy_nested_outer_escape 1).1 (alloc init) (Prog.ret 0) Prog.ret 0
      (by decide),
   (deploy_nested_outer_escape 1).2 init (fun _ => Prog.ret 0)
      (fun _ => Prog.ret 2)⟩

/-- A call context separating a `break_with` call site from its target's
`deploy`: ordinary intervening work (`emitC`) and deployments of other
targets (`deployC`), nested arbitrarily deep. -/
inductive Ctx (T E : Type) : Type where
  | hole
  | emitC (n : Nat) (c : Ctx T E)
  | deployC (c : Ctx T E) (k : T → Prog T E)

/-- Plug a program into the hole of a context. -/
def plug : Ctx T E → Prog T E → Prog T E
  | .hole, p => p
  | .emitC n c, p => .emit n (plug c p)
  | .deployC c k, p => .deploy (fun _ => plug c p) k

/-- An escape signal aimed at an already-allocated target propagates
unchanged through any context of intervening frames and foreign
deployments, and the target's slot holds the escaping value when the
signal arrives. -/
theorem plug_break_with_propagates (c : Ctx T E) :
    ∀ (s : St T) (a : Nat) (v : T) (dead : Prog T E), a < s.next →
      ∃ s', run (plug c (Prog.break_with a v dead)) s
          = (Res.panicked (PanicPayload.breakRequest a), s')
        ∧ s'.slots a = some v := by
  induction c with
  | hole =>
    intro s a v dead ha
    refine ⟨_, rfl, ?_⟩
    show (fun x => if x = a then some v else s.slots x) a = some v
    simp
  | emitC n c ih =>
    intro s a v dead ha
    rw [plug, run]
    exact ih { s with log := s.log ++ [n] } a v dead ha
  | deployC c k ih =>
    intro s a v dead ha
    obtain ⟨s', h, hsl⟩ := ih (alloc s) a v dead (by rw [alloc_next]; omega)
    have hne : a ≠ s.next := by omega
    refine ⟨s', ?_, hsl⟩
    rw [plug, run, h]
    simp [hne]

/-- Claim C4: invoking `break_with v` on a target at any call depth below
its `deploy` — through an arbitrary chain of intervening ordinary frames
and other targets' deployments (`Ctx`) — delivers exactly `v` to the
`deploy` of that specific target: the deployment returns `v`, and with a
general deployment-site continuation, the continuation receives exactly
`v`. -/
theorem break_with_delivers_to_target (c : Ctx T E) (v : T)
    (dead : Nat → Prog T E) (s : St T) :
    (run (Prog.deploy (fun a => plug c (Prog.break_with a v (dead a)))
        Prog.ret) s).1 = Res.ok v
  ∧ ∀ k : T → Prog T E, ∃ s2,
      run (Prog.deploy (fun a => plug c (Prog.break_with a v (dead a))) k) s
        = run (k v) s2 := by
  have hmain : ∀ k : T → Prog T E, ∃ s2,
      run (Prog.deploy (fun a => plug c (Prog.break_with a v (dead a))) k) s
        = run (k v) s2 := by
    intro k
    obtain ⟨s', h, hsl⟩ := plug_break_with_propagates c (alloc s) s.next v
      (dead s.next) (by rw [alloc_next]; omega)
    refine ⟨readBump s' s.next, ?_⟩
    rw [run, h]
    simp [hsl]
  refine ⟨?_, hmain⟩
  obtain ⟨s2, h⟩ := hmain Prog.ret
  rw [h, run]

/-- Claim C5: an abrupt propagation out of the body that was not produced
by `break_with` — an unrelated panic with payload `e` — is not consumed by
`deploy` as an escape: it is re-raised unchanged, so a caller wrapping the
deployment observes the original payload `e` exactly, with no wrapping or
truncation. -/
theorem deploy_propagates_unrelated_failure (body : Nat → Prog T E)
    (k : T → Prog T E) (s : St T) (e : E) (s2 : St T)
    (h : run (body s.next) (alloc s)
      = (Res.panicked (PanicPayload.other e), s2)) :
    run (Prog.deploy body k) s = (Res.panicked (PanicPayload.other e), s2) := by
  rw [run, h]

/-- Witness for `deploy_propagates_unrelated_failure`, mirroring
`tests::propagate_panic`: a body that panics with payload `1` surfaces to
the wrapping caller as exactly `1`. -/
theorem deploy_propagates_unrelated_failure_witness :
    run (Prog.deploy (fun _ => (Prog.fail 1 : Prog Nat Nat)) Prog.ret)
        (init : St Nat)
      = (Res.panicked (PanicPayload.other 1), alloc init) :=
  deploy_propagates_unrelated_failure (fun _ => Prog.fail 1) Prog.ret init 1
    (alloc init) rfl

/-- Unpacking an `obs` equality into its three field equalities. -/
theorem stable_fields {s0 s1 : St T} {a : Nat} (h : obs s1 a = obs s0 a) :
    s1.slots a = s0.slots a ∧ s1.wcount a = s0.wcount a
      ∧ s1.rcount a = s0.rcount a := by
  refine ⟨?_, ?_, ?_⟩
  · have hc := congrArg (fun t => t.1) h
    simpa [obs] using hc
  · have hc := congrArg (fun t => t.2.1) h
    simpa [obs] using hc
  · have hc := congrArg (fun t => t.2.2) h
    simpa [obs] using hc

/-- Counterexample to claim C7's two-outcome dichotomy, at the concrete
deployment of `tests::propagate_panic`: when the body panics with an
unrelated payload, the deployment ends with the body neither returning a
value (first claimed outcome) nor escaping with the slot filled (second
claimed outcome) — it re-propagates the failure with the slot still
empty. -/
theorem deploy_two_outcomes_counterexample :
    ¬ ((∃ (v : Nat) (s2 : St Nat),
          run ((fun _ => (Prog.fail 1 : Prog Nat Nat)) (init : St Nat).next)
              (alloc init) = (Res.ok v, s2)
          ∧ s2.slots (init : St Nat).next = none)
      ∨ (∃ (v : Nat) (s2 : St Nat),
          run ((fun _ => (Prog.fail 1 : Prog Nat Nat)) (init : St Nat).next)
              (alloc init)
            = (Res.panicked
                (PanicPayload.breakRequest (init : St Nat).next), s2)
          ∧ s2.slots (init : St Nat).next = some v)) := by
  rintro (⟨v, s2, h, hsl⟩ | ⟨v, s2, h, hsl⟩) <;> simp [run] at h

/-- Claim C7 (amended): per deployment the payload slot is written at most
once and read at most once, the write strictly preceding the read, and
every deployment ends in exactly one of three disjoint outcomes: the body
returns a value directly and the slot stays empty (never written, never
read); the body escapes via this target and the slot is filled — written
exactly once, not yet read — before the deployment performs its single
read and returns the stored value; or the body's unwinding carries a
non-matching signal or unrelated failure, the slot stays empty and
untouched, and the deployment re-propagates instead of returning. -/
theorem deploy_slot_discipline (body : Nat → Prog T E) (s : St T) :
    (∃ v s2, run (body s.next) (alloc s) = (Res.ok v, s2)
      ∧ run (Prog.deploy body Prog.ret) s = (Res.ok v, s2)
      ∧ s2.slots s.next = none
      ∧ s2.wcount s.next = s.wcount s.next
      ∧ s2.rcount s.next = s.rcount s.next)
  ∨ (∃ v s2, run (body s.next) (alloc s)
        = (Res.panicked (PanicPayload.breakRequest s.next), s2)
      ∧ s2.slots s.next = some v
      ∧ s2.wcount s.next = s.wcount s.next + 1
      ∧ s2.rcount s.next = s.rcount s.next
      ∧ run (Prog.deploy body Prog.ret) s = (Res.ok v, readBump s2 s.next)
      ∧ (readBump s2 s.next).wcount s.next = s.wcount s.next + 1
      ∧ (readBump s2 s.next).rcount s.next = s.rcount s.next + 1)
  ∨ (∃ p s2, run (body s.next) (alloc s) = (Res.panicked p, s2)
      ∧ p ≠ PanicPayload.breakRequest s.next
      ∧ s2.slots s.next = none
      ∧ s2.wcount s.next = s.wcount s.next
      ∧ s2.rcount s.next = s.rcount s.next
      ∧ run (Prog.deploy body Prog.ret) s = (Res.panicked p, s2)) := by
  rcases hb : run (body s.next) (alloc s) with ⟨r2, s2⟩
  cases r2 with
  | ok v =>
    have hstab := run_stable (body s.next) (alloc s) s.next
      (by rw [alloc_next]; omega) (by rw [hb]; simp)
    rw [hb] at hstab
    have hstab2 : obs s2 s.next = obs (alloc s) s.next := hstab
    obtain ⟨h1, h2, h3⟩ := stable_fields hstab2
    refine Or.inl ⟨v, s2, rfl, ?_, ?_, h2, h3⟩
    · rw [run, hb]
      rfl
    · rw [h1]
      simp [alloc]
  | panicked pp =>
    cases pp with
    | breakRequest b =>
      by_cases hbs : b = s.next
      · subst hbs
        obtain ⟨⟨v, hsl⟩, hcnt⟩ :=
          run_escape_state (body s.next) (alloc s) s.next s2 hb
        have hcnt2 := hcnt (by rw [alloc_next]; omega)
        refine Or.inr (Or.inl ⟨v, s2, rfl, hsl, hcnt2.1, hcnt2.2, ?_, ?_, ?_⟩)
        · rw [run, hb]
          simp [run, hsl]
        · exact hcnt2.1
        · show (fun x => if x = s.next then s2.rcount s.next + 1
              else s2.rcount x) s.next = s.rcount s.next + 1
          simp [hcnt2.2]
      · have hstab := run_stable (body s.next) (alloc s) s.next
          (by rw [alloc_next]; omega)
          (by
            rw [hb]
            simp only [ne_eq, Res.panicked.injEq,
              PanicPayload.breakRequest.injEq]
            omega)
        rw [hb] at hstab
        have hstab2 : obs s2 s.next = obs (alloc s) s.next := hstab
        obtain ⟨h1, h2, h3⟩ := stable_fields hstab2
        refine Or.inr (Or.inr ⟨PanicPayload.breakRequest b, s2, rfl,
          by simp [hbs], ?_, h2, h3, ?_⟩)
        · rw [h1]
          simp [alloc]
        · rw [run, hb]
          simp [hbs]
    | unwrapFailed =>
      have hstab := run_stable (body s.next) (alloc s) s.next
        (by rw [alloc_next]; omega) (by rw [hb]; simp)
      rw [hb] at hstab
      have hstab2 : obs s2 s.next = obs (alloc s) s.next := hstab
      obtain ⟨h1, h2, h3⟩ := stable_fields hstab2
      refine Or.inr (Or.inr ⟨PanicPayload.unwrapFailed, s2, rfl,
        by simp, ?_, h2, h3, ?_⟩)
      · rw [h1]
        simp [alloc]
      · rw [run, hb]
    | other e =>
      have hstab := run_stable (body s.next) (alloc s) s.next
        (by rw [alloc_next]; omega) (by rw [hb]; simp)
      rw [hb] at hstab
      have hstab2 : obs s2 s.next = obs (alloc s) s.next := hstab
      obtain ⟨h1, h2, h3⟩ := stable_fields hstab2
      refine Or.inr (Or.inr ⟨PanicPayload.other e, s2, rfl,
        by simp, ?_, h2, h3, ?_⟩)
      · rw [h1]
        simp [alloc]
      · rw [run, hb]

/-- Claim C8: every escape signal carries a marker equal to the address of
the target it was raised for (first conjunct: `break_with` on the target at
address `t` raises `breakRequest t`), and a `deploy` intercepting an escape
signal consumes it exactly when its marker equals its own target's address:
on inequality it re-propagates the very same signal unchanged, on equality
it extracts the slot's value and delivers it to the deployment site.
Matching compares addresses (identity), never payload values. -/
theorem escape_marker_identity (body : Nat → Prog T E)
    (k : T → Prog T E) (s : St T) (b : Nat) (s2 : St T)
    (h : run (body s.next) (alloc s)
      = (Res.panicked (PanicPayload.breakRequest b), s2)) :
    (∀ (t : Nat) (v : T) (rest : Prog T E) (s0 : St T),
        (run (Prog.break_with t v rest) s0).1
          = Res.panicked (PanicPayload.breakRequest t))
  ∧ (b ≠ s.next →
      run (Prog.deploy body k) s
        = (Res.panicked (PanicPayload.breakRequest b), s2))
  ∧ (b = s.next →
      ∃ v, s2.slots b = some v
        ∧ run (Prog.deploy body k) s = run (k v) (readBump s2 b)) := by
  refine ⟨fun t v rest s0 => rfl, ?_, ?_⟩
  · intro hne
    rw [run, h]
    simp [hne]
  · intro heq
    subst heq
    obtain ⟨⟨v, hsl⟩, _⟩ :=
      run_escape_state (body s.next) (alloc s) s.next s2 h
    refine ⟨v, hsl, ?_⟩
    rw [run, h]
    simp [hsl]

/-- Witness for `escape_marker_identity`: a body escaping toward address
`5`, which is not the deployment's own target address `0`, makes the
deployment re-propagate the signal unchanged. -/
theorem escape_marker_identity_witness :
    run (Prog.deploy
        (fun _ => Prog.break_with 5 (7 : Nat) (Prog.ret 0 : Prog Nat Nat))
        Prog.ret) (init : St Nat)
      = (Res.panicked (PanicPayload.breakRequest 5),
         { alloc (init : St Nat) with
           slots := fun x => if x = 5 then some 7
                    else (alloc (init : St Nat)).slots x,
           wcount := fun x => if x = 5 then (alloc (init : St Nat)).wcount 5 + 1
                     else (alloc (init : St Nat)).wcount x }) :=
  (escape_marker_identity (fun _ => Prog.break_with 5 7 (Prog.ret 0))
      Prog.ret init 5
      { alloc (init : St Nat) with
        slots := fun x => if x = 5 then some 7
                 else (alloc (init : St Nat)).slots x,
        wcount := fun x => if x = 5 then (alloc (init : St Nat)).wcount 5 + 1
                  else (alloc (init : St Nat)).wcount x }
      rfl).2.1 (by decide)

/-- Claim C9: whenever an intercepted panic payload is an escape signal
whose address equals this deployment's own fresh target address, the
payload slot necessarily holds a value (first conjunct), so the extraction
`into_inner().unwrap()` never fails: no run of any program can produce the
`unwrapFailed` panic — the empty-slot branch of `deploy` is unreachable
(second conjunct). -/
theorem deploy_unwrap_never_fails :
    (∀ (body : Nat → Prog T E) (s : St T) (s2 : St T),
      run (body s.next) (alloc s)
        = (Res.panicked (PanicPayload.breakRequest s.next), s2) →
      ∃ v, s2.slots s.next = some v)
  ∧ ∀ (p : Prog T E) (s : St T),
      (run p s).1 ≠ Res.panicked PanicPayload.unwrapFailed := by
  refine ⟨fun body s s2 h =>
    (run_escape_state (body s.next) (alloc s) s.next s2 h).1, ?_⟩
  intro p
  induction p with
  | ret v => intro s; simp [run]
  | fail e => intro s; simp [run]
  | break_with tgt v rest ih => intro s; simp [run]
  | emit n rest ih =>
    intro s
    rw [run]
    exact ih _
  | deploy body k ihb ihk =>
    intro s
    rcases hb : run (body s.next) (alloc s) with ⟨r2, s2⟩
    cases r2 with
    | ok v =>
      have heq : run (Prog.deploy body k) s = run (k v) s2 := by
        rw [run, hb]
      rw [heq]
      exact ihk v s2
    | panicked pp =>
      cases pp with
      | breakRequest b =>
        by_cases hbs : b = s.next
        · subst hbs
          obtain ⟨v, hsl⟩ :=
            (run_escape_state (body s.next) (alloc s) s.next s2 hb).1
          have heq : run (Prog.deploy body k) s
              = run (k v) (readBump s2 s.next) := by
            rw [run, hb]
            simp [hsl]
          rw [heq]
          exact ihk v (readBump s2 s.next)
        · have heq : run (Prog.deploy body k) s
              = (Res.panicked (PanicPayload.breakRequest b), s2) := by
            rw [run, hb]
            simp [hbs]
          rw [heq]
          simp
      | unwrapFailed =>
        have hcontra := ihb s.next (alloc s)
        rw [hb] at hcontra
        exact absurd rfl hcontra
      | other e =>
        have heq : run (Prog.deploy body k) s
            = (Res.panicked (PanicPayload.other e), s2) := by
          rw [run, hb]
        rw [heq]
        simp

/-- Witness for `deploy_unwrap_never_fails`: the matching-escape slot fact
at a concrete one-step escape, and the no-`unwrapFailed` fact at a concrete
program. -/
theorem deploy_unwrap_never_fails_witness :
    (∃ v, ({ alloc (init : St Nat) with
        slots := fun x => if x = 0 then some (7 : Nat)
                 else (alloc (init : St Nat)).slots x,
        wcount := fun x => if x = 0 then (alloc (init : St Nat)).wcount 0 + 1
                  else (alloc (init : St Nat)).wcount x } : St Nat).slots 0
      = some v)
  ∧ (run (Prog.deploy (fun a => Prog.break_with a (7 : Nat)
        (Prog.ret 0 : Prog Nat Nat)) Prog.ret) (init : St Nat)).1
      ≠ Res.panicked PanicPayload.unwrapFailed :=
  ⟨deploy_unwrap_never_fails.1
      (fun a => Prog.break_with a 7 (Prog.ret 0 : Prog Nat Nat)) init
      { alloc (init : St Nat) with
        slots := fun x => if x = 0 then some 7
                 else (alloc (init : St Nat)).slots x,
        wcount := fun x => if x = 0 then (alloc (init : St Nat)).wcount 0 + 1
                  else (alloc (init : St Nat)).wcount x }
      rfl,
   deploy_unwrap_never_fails.2
      (Prog.deploy (fun a => Prog.break_with a 7 (Prog.ret 0 : Prog Nat Nat))
        Prog.ret) init⟩

end Breaktarget
